import Mathlib

/-!
Setting nodes of `pajlada/settings`.

A shallow embedding of `include/pajlada/settings/settingdata.hpp`: the option
bitmask, the type-erased node `ISettingData` and the typed node
`SettingData<Type>`, followed by theorems about them.

Conventions of the embedding

* A node is a record of its data members.  Every member function takes the node
  and returns the node it leaves behind.
* The two signals (`valueChanged`, `simpleValueChanged`) belong to the external
  signal library.  A call of `invoke` is recorded as an `Invocation`; a member
  function returns, next to the node, the invocations it made, in order.
* What the connected callbacks do is followed in a second layer, `World`: the
  node together with the callbacks connected to its signals and the documents
  they refer to.  There each invocation runs the connected callbacks, which may
  write a document (`registerDocument`) or call `setValue` on the node again.
* `IsEqual<Type>`, `Serialize<Type>` and `Deserialize<Type>` are per-type
  traits; they are passed as a `Traits` record of total functions (a trait that
  throws is outside the embedding).
* The JSON document is the external rapidjson type; path lookup and placement
  are passed as a `Document` record.
* `SettingOption` has underlying type `uint64_t`; a mask is a natural number.
  `|` and `&` never leave the 64-bit range, so no reduction is written.
-/

namespace pajlada.Settings

/-! ## Option flags -/

/-- `SettingOption::DoNotWriteToJSON = (1ull << 1ull)`. -/
def SettingOption.DoNotWriteToJSON : Nat := 1 <<< 1

/-- `SettingOption::ForceSetOptions = (1ull << 2ull)`. -/
def SettingOption.ForceSetOptions : Nat := 1 <<< 2

/-- `SettingOption::SaveInitialValue = (1ull << 3ull)`. -/
def SettingOption.SaveInitialValue : Nat := 1 <<< 3

/-- `SettingOption::Remote = (1ull << 4ull)`. -/
def SettingOption.Remote : Nat := 1 <<< 4

/-- `SettingOption::Default = 0`. -/
def SettingOption.Default : Nat := 0

/-- `operator|(const SettingOption &lhs, const SettingOption &rhs)`. -/
def SettingOption.or (lhs rhs : Nat) : Nat := lhs ||| rhs

/-- `operator&(const SettingOption &lhs, const SettingOption &rhs)`. -/
def SettingOption.and (lhs rhs : Nat) : Nat := lhs &&& rhs

/-! ## Signal metadata -/

/-- Modelled from the spec: `signalargs.hpp` is not among the sources.  The
source tag is "drawn from {unspecified, explicit-setter, unmarshal, …}"; the
header names the first three `Unset`, `Setter` and `Unmarshal`, and `Other`
stands for the tags the spec elides. -/
inductive Source where
  | Unset
  | Setter
  | Unmarshal
  | Other (tag : Nat)
  deriving DecidableEq

/-- Modelled from the spec: `signalargs.hpp` is not among the sources.  Signal
metadata is "a transient per-change record (path, source-of-change tag)"; a
default-constructed record has an unspecified source. -/
structure SignalArgs where
  source : Source := Source.Unset
  path : String := ""
  deriving DecidableEq

/-- One call of `invoke` on one of the node's two signals, with its arguments. -/
inductive Invocation (T : Type) where
  /-- `valueChanged.invoke(value, args)`, the typed signal. -/
  | valueChanged (value : T) (args : SignalArgs)
  /-- `simpleValueChanged.invoke(args)`, the type-erased signal. -/
  | simpleValueChanged (args : SignalArgs)
  deriving DecidableEq

/-- The metadata an invocation carries. -/
def Invocation.args {T : Type} : Invocation T → SignalArgs
  | Invocation.valueChanged _ args => args
  | Invocation.simpleValueChanged args => args

/-! ## Collaborators -/

/-- The per-type traits used by `SettingData<Type>`:
`IsEqual<Type>::get(lhs, rhs)`, `Serialize<Type>::get(value, allocator)` and
`Deserialize<Type>::get(json)`.  `J` is the JSON value type. -/
structure Traits (T J : Type) where
  isEqual : T → T → Bool
  serialize : T → J
  deserialize : J → T

/-- The document collaborator: `lookup d path` is what the path resolves to in
`d` (`none` for a null locator), `place d path j` is `d` after `j` has been put
at `path`. -/
structure Document (D J : Type) where
  lookup : D → String → Option J
  place : D → String → J → D

/-! ## The node -/

/-- Data members of `ISettingData` and `SettingData<Type>`.  The field defaults
are the default member initialisers of `ISettingData`. -/
structure SettingData (T : Type) where
  options : Nat := SettingOption.Default
  path : String := ""
  valueHasBeenSet : Bool := false
  defaultValue : T
  value : T
  deriving DecidableEq

/-- What a member function leaves behind: the node and the signal invocations it
made, oldest first. -/
structure Effect (T : Type) where
  node : SettingData T
  invoked : List (Invocation T)
  deriving DecidableEq

namespace SettingData

variable {T J D : Type}

/-- `ISettingData::optionEnabled`: `(this->options & option) == option`. -/
def optionEnabled (s : SettingData T) (option : Nat) : Bool :=
  SettingOption.and s.options option == option

/-- Modelled from the spec: `ISettingData::getPath` is declared in the header and
defined elsewhere; it is the "plain accessor" of the path. -/
def getPath (s : SettingData T) : String := s.path

/-- Modelled from the spec: `ISettingData::hasBeenSet` is declared in the header
and defined elsewhere; it reports the "explicitly-set" boolean
`valueHasBeenSet`. -/
def hasBeenSet (s : SettingData T) : Bool := s.valueHasBeenSet

/-- Modelled from the spec: `ISettingData::get` is declared in the header and
defined elsewhere; it is the "path-resolution helper returning a non-owning,
possibly-null locator into a given document", resolving the node's own path. -/
def get (doc : Document D J) (s : SettingData T) (document : D) : Option J :=
  doc.lookup document s.path

/-- `SettingData::getDefaultValue`. -/
def getDefaultValue (s : SettingData T) : T := s.defaultValue

/-- `SettingData::getValue`. -/
def getValue (s : SettingData T) : T := s.value

/-- Modelled from the spec: `ISettingData::setPath` is declared in the header and
defined elsewhere; it is the "plain mutator" of the path. -/
def setPath (s : SettingData T) (_path : String) : Effect T :=
  { node := { s with path := _path }, invoked := [] }

/-- `SettingData(const Type &_defaultValue)`: `defaultValue(_defaultValue)`,
`value(_defaultValue)` on top of a default-constructed `ISettingData`. -/
def fromDefault (_defaultValue : T) : Effect T :=
  { node := { defaultValue := _defaultValue, value := _defaultValue }, invoked := [] }

/-- `SettingData(const Type &_defaultValue, const Type &_currentValue)`. -/
def fromDefaultAndCurrent (_defaultValue _currentValue : T) : Effect T :=
  { node := { defaultValue := _defaultValue, value := _currentValue }, invoked := [] }

/-- `SettingData(Type &&_defaultValue)`: both members are copy-initialised from
the named parameter. -/
def fromDefaultMoved (_defaultValue : T) : Effect T :=
  { node := { defaultValue := _defaultValue, value := _defaultValue }, invoked := [] }

/-- `SettingData(Type &&_defaultValue, Type &&_currentValue)`: each member is
move-initialised from its own parameter. -/
def fromDefaultAndCurrentMoved (_defaultValue _currentValue : T) : Effect T :=
  { node := { defaultValue := _defaultValue, value := _currentValue }, invoked := [] }

/-- `SettingData::setDefaultValue(const Type &newDefaultValue)`. -/
def setDefaultValue (s : SettingData T) (newDefaultValue : T) : Effect T :=
  { node := { s with defaultValue := newDefaultValue }, invoked := [] }

/-- `SettingData::marshalInto`: `Serialize<Type>::get(this->getValue(), ...)`. -/
def marshalInto (tr : Traits T J) (s : SettingData T) : J :=
  tr.serialize s.getValue

/-- Modelled from the spec: `ISettingData::marshal` is declared in the header and
defined elsewhere; it "writes the current value into `document` at this node's
path, by obtaining a JSON representation from the abstract `marshalInto`
operation and placing it at the path". -/
def marshal (doc : Document D J) (tr : Traits T J) (s : SettingData T) (d : D) : D :=
  doc.place d s.path (s.marshalInto tr)

/-- `SettingData::setValue(const Type &newValue, SignalArgs &&args)`. -/
def setValue (tr : Traits T J) (s : SettingData T) (newValue : T) (args : SignalArgs) :
    Effect T :=
  if tr.isEqual s.value newValue then
    { node := s, invoked := [] }
  else
    let s₁ := { s with valueHasBeenSet := true }
    let s₂ := { s₁ with value := newValue }
    let invocationArgs : SignalArgs := args
    let invocationArgs := { invocationArgs with path := s₂.path }
    let invocationArgs :=
      if invocationArgs.source = Source.Unset then
        { invocationArgs with source := Source.Setter }
      else invocationArgs
    { node := s₂
      invoked := [Invocation.valueChanged newValue invocationArgs,
                  Invocation.simpleValueChanged invocationArgs] }

/-- `SettingData::resetToDefaultValue(SignalArgs &&args)`. -/
def resetToDefaultValue (tr : Traits T J) (s : SettingData T) (args : SignalArgs) :
    Effect T :=
  let tmp := s.valueHasBeenSet
  let r := s.setValue tr s.defaultValue args
  { r with node := { r.node with valueHasBeenSet := tmp } }

/-- `SettingData::unmarshalValue(const rapidjson::Value &fromValue)`; the
boolean is the return value. -/
def unmarshalValue (tr : Traits T J) (s : SettingData T) (fromValue : J) :
    Bool × Effect T :=
  let newValue := tr.deserialize fromValue
  let args : SignalArgs := {}
  let args := { args with source := Source.Unmarshal }
  let args := { args with path := s.getPath }
  (true, s.setValue tr newValue args)

/-- `SettingData::unmarshalFrom(rapidjson::Document &document)`; the boolean is
the return value. -/
def unmarshalFrom (doc : Document D J) (tr : Traits T J) (s : SettingData T)
    (document : D) : Bool × Effect T :=
  match s.get doc document with
  | none => (false, { node := s, invoked := [] })
  | some valuePointer =>
    let newValue := tr.deserialize valuePointer
    let args : SignalArgs := {}
    let args := { args with source := Source.Unmarshal }
    let args := { args with path := s.getPath }
    (true, s.setValue tr newValue args)

end SettingData

/-! ## The node with its signals connected

`registerDocument` connects a callback to the typed signal, and a callback may
call back into the node.  To follow that, the node is put together with the
callbacks connected to its two signals and with the documents the callbacks
refer to.  A document reference (`rapidjson::Document &`) is an index into the
store of documents.  Delivery is synchronous and in connection order; `fuel`
bounds the depth of nested `setValue` calls, and `none` means the bound was
reached. -/

/-- A callback connected to one of the node's signals, by what it does when it
is called. -/
inductive Slot (T : Type) where
  /-- The lambda of `registerDocument`, `[this, &d] { this->marshal(d); }`. -/
  | marshal (d : Nat)
  /-- A subscriber that reacts by calling `setValue(newValue, args)` on the node. -/
  | setValue (newValue : T) (args : SignalArgs)
  /-- A subscriber that touches neither the node nor a document. -/
  | observe
  deriving DecidableEq

/-- Whether the callback leaves the node alone. -/
def Slot.passive {T : Type} : Slot T → Bool
  | Slot.marshal _ => true
  | Slot.setValue _ _ => false
  | Slot.observe => true

/-- The node, the callbacks connected to `valueChanged` and to
`simpleValueChanged` in connection order, the documents, and every signal
invocation made so far, oldest first. -/
structure World (T D : Type) where
  node : SettingData T
  valueChanged : List (Slot T)
  simpleValueChanged : List (Slot T)
  documents : Nat → D
  invoked : List (Invocation T)

namespace World

variable {T J D : Type}

/-- `ISettingData::marshal(d)` on the document the reference `d` names. -/
def marshal (doc : Document D J) (tr : Traits T J) (w : World T D) (d : Nat) : World T D :=
  { w with documents := Function.update w.documents d (w.node.marshal doc tr (w.documents d)) }

/-- One connected callback is called; `reenter` is `setValue` on the node. -/
def call (doc : Document D J) (tr : Traits T J)
    (reenter : World T D → T → SignalArgs → Option (World T D)) (w : World T D) :
    Slot T → Option (World T D)
  | Slot.marshal d => some (w.marshal doc tr d)
  | Slot.setValue newValue args => reenter w newValue args
  | Slot.observe => some w

/-- The callbacks of one signal are called one after the other. -/
def callAll (doc : Document D J) (tr : Traits T J)
    (reenter : World T D → T → SignalArgs → Option (World T D)) :
    List (Slot T) → World T D → Option (World T D)
  | [], w => some w
  | slot :: rest, w => (call doc tr reenter w slot).bind (callAll doc tr reenter rest)

/-- `Signal::invoke`: the invocation is recorded and delivered to the callbacks
connected to its signal at that moment. -/
def invoke (doc : Document D J) (tr : Traits T J)
    (reenter : World T D → T → SignalArgs → Option (World T D)) (w : World T D)
    (i : Invocation T) : Option (World T D) :=
  let w := { w with invoked := w.invoked ++ [i] }
  match i with
  | Invocation.valueChanged _ _ => callAll doc tr reenter w.valueChanged w
  | Invocation.simpleValueChanged _ => callAll doc tr reenter w.simpleValueChanged w

/-- The invocations of a member function are made in order. -/
def invokeAll (doc : Document D J) (tr : Traits T J)
    (reenter : World T D → T → SignalArgs → Option (World T D)) :
    List (Invocation T) → World T D → Option (World T D)
  | [], w => some w
  | i :: rest, w => (invoke doc tr reenter w i).bind (invokeAll doc tr reenter rest)

/-- `SettingData::setValue` with the signals connected: the node is updated as
by `SettingData.setValue`, then `valueChanged.invoke` and
`simpleValueChanged.invoke` run the connected callbacks. -/
def setValue (doc : Document D J) (tr : Traits T J) :
    Nat → World T D → T → SignalArgs → Option (World T D)
  | 0, _, _, _ => none
  | fuel + 1, w, newValue, args =>
    let r := w.node.setValue tr newValue args
    invokeAll doc tr (setValue doc tr fuel) r.invoked { w with node := r.node }

/-- `SettingData::resetToDefaultValue` with the signals connected. -/
def resetToDefaultValue (doc : Document D J) (tr : Traits T J) (fuel : Nat)
    (w : World T D) (args : SignalArgs) : Option (World T D) :=
  let tmp := w.node.valueHasBeenSet
  (setValue doc tr fuel w w.node.defaultValue args).map
    (fun w₁ => { w₁ with node := { w₁.node with valueHasBeenSet := tmp } })

/-- `SettingData::unmarshalValue` with the signals connected. -/
def unmarshalValue (doc : Document D J) (tr : Traits T J) (fuel : Nat)
    (w : World T D) (fromValue : J) : Option (Bool × World T D) :=
  let newValue := tr.deserialize fromValue
  let args : SignalArgs := {}
  let args := { args with source := Source.Unmarshal }
  let args := { args with path := w.node.getPath }
  (setValue doc tr fuel w newValue args).map (fun w₁ => (true, w₁))

/-- `SettingData::unmarshalFrom` with the signals connected, on the document the
reference `document` names. -/
def unmarshalFrom (doc : Document D J) (tr : Traits T J) (fuel : Nat)
    (w : World T D) (document : Nat) : Option (Bool × World T D) :=
  match w.node.get doc (w.documents document) with
  | none => some (false, w)
  | some valuePointer =>
    let newValue := tr.deserialize valuePointer
    let args : SignalArgs := {}
    let args := { args with source := Source.Unmarshal }
    let args := { args with path := w.node.getPath }
    (setValue doc tr fuel w newValue args).map (fun w₁ => (true, w₁))

/-- `SettingData::registerDocument(rapidjson::Document &d)`. -/
def registerDocument (doc : Document D J) (tr : Traits T J) (w : World T D) (d : Nat) :
    World T D :=
  let w₁ := { w with valueChanged := w.valueChanged ++ [Slot.marshal d] }
  if w₁.node.optionEnabled SettingOption.SaveInitialValue then
    w₁.marshal doc tr d
  else
    w₁

/-- What a document holds once `marshal` has run on the node: the serialized
current value was placed at the node's path. -/
def Marshalled (doc : Document D J) (tr : Traits T J)
    (node : SettingData T) (document : D) : Prop :=
  ∃ d₀ : D, document = doc.place d₀ node.path (tr.serialize node.value)

end World

/-! ## Concrete instances used to evaluate the definitions -/

/-- A node put in a world with nothing connected, empty flat documents and no
invocation made. -/
def World.ofNode (node : SettingData Nat) : World Nat (List (String × Nat)) :=
  { node := node, valueChanged := [], simpleValueChanged := [],
    documents := fun _ => [], invoked := [] }


/-- A node at `/a` built from the default 0 alone and never set. -/
def freshNode : SettingData Nat := { path := "/a", defaultValue := 0, value := 0 }

/-- A node at `/a` built from the default 0 and the current value 10. -/
def overriddenNode : SettingData Nat := { path := "/a", defaultValue := 0, value := 10 }

/-- Traits of an unsigned integer stored as a JSON number: `IsEqual` is `==`,
serialisation is the identity. -/
def natTraits : Traits Nat Nat where
  isEqual := fun a b => a == b
  serialize := fun x => x
  deserialize := fun j => j

/-- An equality trait that is coarser than identity: two numbers are equivalent
when they agree modulo ten. -/
def modTenTraits : Traits Nat Nat where
  isEqual := fun a b => a % 10 == b % 10
  serialize := fun x => x
  deserialize := fun j => j

/-- A flat document: a list of (path, value) entries, the first entry of a path
being the one it resolves to. -/
def flatDocument : Document (List (String × Nat)) Nat where
  lookup := fun d p => (d.find? (fun e => e.1 == p)).map (fun e => e.2)
  place := fun d p j => (p, j) :: d.filter (fun e => e.1 != p)

/-- A never-set node at `/a` whose options are `SaveInitialValue`. -/
def savingNode : SettingData Nat :=
  { options := SettingOption.SaveInitialValue, path := "/a", defaultValue := 7, value := 7 }

/-- A node at `/a` that has been set to 5. -/
def touchedNode : SettingData Nat :=
  { path := "/a", valueHasBeenSet := true, defaultValue := 0, value := 5 }

open SettingData

/-- Every bit of `f` is a bit of `o` exactly when and-ing `o` with `f` gives `f`. -/
theorem land_eq_right_iff (o f : Nat) :
    o &&& f = f ↔ ∀ i, f.testBit i = true → o.testBit i = true := by
  constructor
  · intro h i hf
    have hbit := congrArg (fun n => n.testBit i) h
    simp only [Nat.testBit_and, hf, Bool.and_true] at hbit
    exact hbit
  · intro h
    apply Nat.eq_of_testBit_eq
    intro i
    rw [Nat.testBit_and]
    cases hf : f.testBit i
    · simp
    · simp [h i hf]

/-- The node of an accepted `setValue` and the two invocations it makes. -/
theorem setValue_of_ne {T J : Type} (tr : Traits T J) (s : SettingData T) (v : T)
    (metadata : SignalArgs) (hne : tr.isEqual s.value v = false) :
    s.setValue tr v metadata =
      { node := { s with valueHasBeenSet := true, value := v }
        invoked :=
          [Invocation.valueChanged v
              { source := if metadata.source = Source.Unset then Source.Setter
                          else metadata.source
                path := s.path },
            Invocation.simpleValueChanged
              { source := if metadata.source = Source.Unset then Source.Setter
                          else metadata.source
                path := s.path }] } := by
  by_cases hsrc : metadata.source = Source.Unset <;> simp [setValue, hne, hsrc]

/-- A suppressed `setValue` returns the node untouched and invokes nothing. -/
theorem setValue_of_eq {T J : Type} (tr : Traits T J) (s : SettingData T) (v : T)
    (metadata : SignalArgs) (heq : tr.isEqual s.value v = true) :
    s.setValue tr v metadata = { node := s, invoked := [] } := by
  simp [setValue, heq]

/-- C1: equality suppression.  When the equality trait reports the current value
and `v` equal, `setValue(v, metadata)` invokes neither signal and leaves the
whole node (value, default, hasBeenSet, path, options) as it was. -/
theorem setValue_suppressed {T J : Type} (tr : Traits T J) (s : SettingData T) (v : T)
    (metadata : SignalArgs) (heq : tr.isEqual s.getValue v = true) :
    (s.setValue tr v metadata).invoked = [] ∧ (s.setValue tr v metadata).node = s := by
  simp [setValue_of_eq tr s v metadata heq]

/-- Witness of C1 with a coarse equality trait: 10 and 20 agree modulo ten. -/
theorem setValue_suppressed_witness :
    modTenTraits.isEqual overriddenNode.getValue 20 = true ∧
      ((overriddenNode.setValue modTenTraits 20
            { source := Source.Other 3, path := "/x" }).invoked = [] ∧
        (overriddenNode.setValue modTenTraits 20
            { source := Source.Other 3, path := "/x" }).node = overriddenNode) :=
  ⟨by decide, setValue_suppressed modTenTraits overriddenNode 20 _ (by decide)⟩

/-- C2: accepted change.  When the equality trait reports `v` different from the
current value, `setValue(v, metadata)` makes `getValue()` return `v`, makes
`hasBeenSet()` true and invokes exactly the typed signal with `(v, m)` and then
the type-erased signal with the same `m`, where `m.path` is the node's own path
whatever path the caller supplied. -/
theorem setValue_accepted {T J : Type} (tr : Traits T J) (s : SettingData T) (v : T)
    (metadata : SignalArgs) (hne : tr.isEqual s.getValue v = false) :
    (s.setValue tr v metadata).node.getValue = v ∧
      (s.setValue tr v metadata).node.hasBeenSet = true ∧
      ∃ m : SignalArgs,
        (s.setValue tr v metadata).invoked =
            [Invocation.valueChanged v m, Invocation.simpleValueChanged m] ∧
          m.path = s.getPath ∧ m.path = (s.setValue tr v metadata).node.getPath := by
  simp [setValue_of_ne tr s v metadata hne, getValue, hasBeenSet, getPath]

/-- Witness of C2: the caller supplies the path `/x`, the node lives at `/a`. -/
theorem setValue_accepted_witness :
    natTraits.isEqual freshNode.getValue 5 = false ∧
      ((freshNode.setValue natTraits 5 { source := Source.Unset, path := "/x" }).node.getValue
          = 5 ∧
        (freshNode.setValue natTraits 5
            { source := Source.Unset, path := "/x" }).node.hasBeenSet = true ∧
        ∃ m : SignalArgs,
          (freshNode.setValue natTraits 5 { source := Source.Unset, path := "/x" }).invoked =
              [Invocation.valueChanged 5 m, Invocation.simpleValueChanged m] ∧
            m.path = freshNode.getPath ∧
            m.path =
              (freshNode.setValue natTraits 5
                { source := Source.Unset, path := "/x" }).node.getPath) :=
  ⟨by decide, setValue_accepted natTraits freshNode 5 _ (by decide)⟩

/-- C3: source defaulting.  An accepted `setValue(v, metadata)` delivers the
same metadata to the typed and to the type-erased signal; its source tag is
`Setter` when the caller left the source `Unset`, and the caller's own tag in
every other case. -/
theorem setValue_source_defaulting {T J : Type} (tr : Traits T J) (s : SettingData T) (v : T)
    (metadata : SignalArgs) (hne : tr.isEqual s.getValue v = false) :
    (∃ m : SignalArgs,
        (s.setValue tr v metadata).invoked =
          [Invocation.valueChanged v m, Invocation.simpleValueChanged m]) ∧
      (metadata.source = Source.Unset →
        ∀ i ∈ (s.setValue tr v metadata).invoked, i.args.source = Source.Setter) ∧
      (metadata.source ≠ Source.Unset →
        ∀ i ∈ (s.setValue tr v metadata).invoked, i.args.source = metadata.source) := by
  by_cases hsrc : metadata.source = Source.Unset <;>
    simp [setValue_of_ne tr s v metadata hne, hsrc, Invocation.args]

/-- Witness of C3: the caller names the source `Other 3` on an accepted change. -/
theorem setValue_source_defaulting_witness :
    natTraits.isEqual freshNode.getValue 5 = false ∧
      ((∃ m : SignalArgs,
          (freshNode.setValue natTraits 5 { source := Source.Other 3, path := "/x" }).invoked =
            [Invocation.valueChanged 5 m, Invocation.simpleValueChanged m]) ∧
        (({ source := Source.Other 3, path := "/x" } : SignalArgs).source = Source.Unset →
          ∀ i ∈ (freshNode.setValue natTraits 5
              { source := Source.Other 3, path := "/x" }).invoked,
            i.args.source = Source.Setter) ∧
        (({ source := Source.Other 3, path := "/x" } : SignalArgs).source ≠ Source.Unset →
          ∀ i ∈ (freshNode.setValue natTraits 5
              { source := Source.Other 3, path := "/x" }).invoked,
            i.args.source = ({ source := Source.Other 3, path := "/x" } : SignalArgs).source)) :=
  ⟨by decide, setValue_source_defaulting natTraits freshNode 5 _ (by decide)⟩

/-- C4: `resetToDefaultValue(metadata)` is `setValue(defaultValue, metadata)`
except for `hasBeenSet`: both leave the same value, default, path and options
and make the same signal invocations, and after the reset `hasBeenSet()` is
what it was before the call. -/
theorem resetToDefaultValue_eq_setValue_default {T J : Type} (tr : Traits T J)
    (s : SettingData T) (metadata : SignalArgs) :
    (s.resetToDefaultValue tr metadata).node.getValue =
        (s.setValue tr s.getDefaultValue metadata).node.getValue ∧
      (s.resetToDefaultValue tr metadata).node.getDefaultValue =
        (s.setValue tr s.getDefaultValue metadata).node.getDefaultValue ∧
      (s.resetToDefaultValue tr metadata).node.getPath =
        (s.setValue tr s.getDefaultValue metadata).node.getPath ∧
      (s.resetToDefaultValue tr metadata).node.options =
        (s.setValue tr s.getDefaultValue metadata).node.options ∧
      (s.resetToDefaultValue tr metadata).invoked =
        (s.setValue tr s.getDefaultValue metadata).invoked ∧
      (s.resetToDefaultValue tr metadata).node.hasBeenSet = s.hasBeenSet := by
  simp [resetToDefaultValue, getValue, getDefaultValue, getPath, hasBeenSet]

/-- C5, as stated, fails: with an equality trait coarser than identity (numbers
equal modulo ten) the node built from default 0 and current value 10 still holds
10 after `resetToDefaultValue()`, because the trait reports 10 and 0 equal and
the call is suppressed. -/
theorem resetToDefaultValue_value_ne_default :
    modTenTraits.isEqual overriddenNode.getValue overriddenNode.getDefaultValue = true ∧
      (overriddenNode.resetToDefaultValue modTenTraits { }).node.getValue = 10 ∧
      (overriddenNode.resetToDefaultValue modTenTraits { }).node.getDefaultValue = 0 ∧
      (overriddenNode.resetToDefaultValue modTenTraits { }).node.getValue ≠
        (overriddenNode.resetToDefaultValue modTenTraits { }).node.getDefaultValue := by
  decide

/-- C5, amended: immediately after `resetToDefaultValue(metadata)` returns,
`getValue()` is the stored default, unless the equality trait reported the value
held before the call equal to the default, in which case that value is kept; so
`getValue()` is the same value as `getDefaultValue()` or is reported equal to it
by the trait.  The scenario default 0, `setValue(5)`, `resetToDefaultValue()`
ends with `getValue() = 0`. -/
theorem resetToDefaultValue_value {T J : Type} (tr : Traits T J) (s : SettingData T)
    (metadata : SignalArgs) :
    (s.resetToDefaultValue tr metadata).node.getValue =
        (if tr.isEqual s.getValue s.getDefaultValue then s.getValue else s.getDefaultValue) ∧
      (s.resetToDefaultValue tr metadata).node.getDefaultValue = s.getDefaultValue ∧
      ((s.resetToDefaultValue tr metadata).node.getValue =
          (s.resetToDefaultValue tr metadata).node.getDefaultValue ∨
        tr.isEqual (s.resetToDefaultValue tr metadata).node.getValue
          (s.resetToDefaultValue tr metadata).node.getDefaultValue = true) ∧
      ((freshNode.setValue natTraits 5 { }).node.resetToDefaultValue natTraits { }).node.getValue
        = 0 := by
  refine ⟨?_, ?_, ?_, by decide⟩ <;>
    by_cases h : tr.isEqual s.value s.defaultValue = true <;>
    simp [resetToDefaultValue, setValue, getValue, getDefaultValue, h]

/-- C6: PathNotFound.  When the node's path resolves to nothing in the document,
`unmarshalFrom(document)` returns false, invokes no signal and leaves the whole
node (value, default, hasBeenSet, path, options) as it was. -/
theorem unmarshalFrom_path_not_found {T J D : Type} (doc : Document D J) (tr : Traits T J)
    (s : SettingData T) (document : D) (hnone : s.get doc document = none) :
    (s.unmarshalFrom doc tr document).1 = false ∧
      (s.unmarshalFrom doc tr document).2.invoked = [] ∧
      (s.unmarshalFrom doc tr document).2.node = s := by
  simp [unmarshalFrom, hnone]

/-- Witness of C6: the document has an entry at `/b` only, the node lives at `/a`. -/
theorem unmarshalFrom_path_not_found_witness :
    overriddenNode.get flatDocument [("/b", 3)] = none ∧
      ((overriddenNode.unmarshalFrom flatDocument natTraits [("/b", 3)]).1 = false ∧
        (overriddenNode.unmarshalFrom flatDocument natTraits [("/b", 3)]).2.invoked = [] ∧
        (overriddenNode.unmarshalFrom flatDocument natTraits [("/b", 3)]).2.node
          = overriddenNode) :=
  ⟨by decide,
    unmarshalFrom_path_not_found flatDocument natTraits overriddenNode [("/b", 3)] (by decide)⟩

/-- C7, as stated, fails: with numbers equal modulo ten, the node holding 10
unmarshals a document holding 0 at its path; the call returns true but is
suppressed, so `getValue()` is still 10 and not the deserialized 0. -/
theorem unmarshalFrom_value_ne_deserialized :
    overriddenNode.get flatDocument [("/a", 0)] = some 0 ∧
      modTenTraits.deserialize 0 = 0 ∧
      (overriddenNode.unmarshalFrom flatDocument modTenTraits [("/a", 0)]).1 = true ∧
      (overriddenNode.unmarshalFrom flatDocument modTenTraits [("/a", 0)]).2.node.getValue
        = 10 ∧
      (overriddenNode.unmarshalFrom flatDocument modTenTraits [("/a", 0)]).2.node.getValue ≠
        modTenTraits.deserialize 0 := by
  decide

/-- C7, amended: when the node's path resolves to the JSON value `j`,
`unmarshalFrom(document)` returns true; afterwards `getValue()` is
`deserialize(j)`, unless the equality trait reported the value held before the
call equal to `deserialize(j)`, in which case that value is kept; and every
signal invocation made carries the source `Unmarshal` and the node's path. -/
theorem unmarshalFrom_found {T J D : Type} (doc : Document D J) (tr : Traits T J)
    (s : SettingData T) (document : D) (j : J) (hsome : s.get doc document = some j) :
    (s.unmarshalFrom doc tr document).1 = true ∧
      (s.unmarshalFrom doc tr document).2.node.getValue =
        (if tr.isEqual s.getValue (tr.deserialize j) then s.getValue else tr.deserialize j) ∧
      ∀ i ∈ (s.unmarshalFrom doc tr document).2.invoked,
        i.args.source = Source.Unmarshal ∧ i.args.path = s.getPath := by
  by_cases h : tr.isEqual s.value (tr.deserialize j) = true
  · simp [unmarshalFrom, hsome, setValue_of_eq tr s _ _ h, getValue, h]
  · have hne : tr.isEqual s.value (tr.deserialize j) = false := by simpa using h
    simp [unmarshalFrom, hsome, setValue_of_ne tr s _ _ hne, getValue, getPath, hne,
      Invocation.args]

/-- Witness of C7 (amended): the never-set node unmarshals 3 from its path. -/
theorem unmarshalFrom_found_witness :
    freshNode.get flatDocument [("/a", 3)] = some 3 ∧
      ((freshNode.unmarshalFrom flatDocument natTraits [("/a", 3)]).1 = true ∧
        (freshNode.unmarshalFrom flatDocument natTraits [("/a", 3)]).2.node.getValue =
          (if natTraits.isEqual freshNode.getValue (natTraits.deserialize 3)
            then freshNode.getValue else natTraits.deserialize 3) ∧
        ∀ i ∈ (freshNode.unmarshalFrom flatDocument natTraits [("/a", 3)]).2.invoked,
          i.args.source = Source.Unmarshal ∧ i.args.path = freshNode.getPath) :=
  ⟨by decide, unmarshalFrom_found flatDocument natTraits freshNode [("/a", 3)] 3 (by decide)⟩

/-- C8, as stated, fails: the never-set node holding 0 unmarshals a document
holding 0 at its path, or the JSON value 0 directly; both calls return true and
`hasBeenSet()` is still false afterwards. -/
theorem unmarshal_equal_value_not_marked_set :
    freshNode.hasBeenSet = false ∧
      (freshNode.unmarshalFrom flatDocument natTraits [("/a", 0)]).1 = true ∧
      (freshNode.unmarshalFrom flatDocument natTraits [("/a", 0)]).2.node.hasBeenSet = false ∧
      (freshNode.unmarshalValue natTraits 0).1 = true ∧
      (freshNode.unmarshalValue natTraits 0).2.node.hasBeenSet = false := by
  decide

/-- C8, amended: whenever `unmarshalFrom(document)` returns true the node's path
resolved to some `j`, and after it, as after `unmarshalValue(j)` (which returns
true for every `j`), `hasBeenSet()` is true if it was true before or if the
equality trait reported `deserialize(j)` different from the current value; a
successful unmarshal of a value the trait reports equal to the current one
leaves `hasBeenSet()` as it was. -/
theorem unmarshal_hasBeenSet {T J D : Type} (doc : Document D J) (tr : Traits T J)
    (s : SettingData T) (document : D)
    (hret : (s.unmarshalFrom doc tr document).1 = true) :
    (∃ j, s.get doc document = some j ∧
        (s.unmarshalFrom doc tr document).2.node.hasBeenSet =
          (s.hasBeenSet || !tr.isEqual s.getValue (tr.deserialize j))) ∧
      ∀ j, (s.unmarshalValue tr j).1 = true ∧
        (s.unmarshalValue tr j).2.node.hasBeenSet =
          (s.hasBeenSet || !tr.isEqual s.getValue (tr.deserialize j)) := by
  have hset : ∀ (v : T) (m : SignalArgs),
      (s.setValue tr v m).node.valueHasBeenSet =
        (s.valueHasBeenSet || !tr.isEqual s.value v) := by
    intro v m
    by_cases h : tr.isEqual s.value v = true
    · simp [setValue_of_eq tr s v m h, h]
    · have hne : tr.isEqual s.value v = false := by simpa using h
      simp [setValue_of_ne tr s v m hne, hne]
  constructor
  · cases hget : s.get doc document with
    | none => simp [unmarshalFrom, hget] at hret
    | some j => exact ⟨j, rfl, by simp [unmarshalFrom, hget, hasBeenSet, getValue, hset]⟩
  · intro j
    simp [unmarshalValue, hasBeenSet, getValue, hset]

/-- Witness of C8 (amended): the never-set node unmarshals 3 from its path. -/
theorem unmarshal_hasBeenSet_witness :
    (freshNode.unmarshalFrom flatDocument natTraits [("/a", 3)]).1 = true ∧
      ((∃ j, freshNode.get flatDocument [("/a", 3)] = some j ∧
          (freshNode.unmarshalFrom flatDocument natTraits [("/a", 3)]).2.node.hasBeenSet =
            (freshNode.hasBeenSet ||
              !natTraits.isEqual freshNode.getValue (natTraits.deserialize j))) ∧
        ∀ j, (freshNode.unmarshalValue natTraits j).1 = true ∧
          (freshNode.unmarshalValue natTraits j).2.node.hasBeenSet =
            (freshNode.hasBeenSet ||
              !natTraits.isEqual freshNode.getValue (natTraits.deserialize j))) :=
  ⟨by decide, unmarshal_hasBeenSet flatDocument natTraits freshNode [("/a", 3)] (by decide)⟩

/-- C9: marshal/unmarshal round trip.  If the document returns at the node's
path the JSON value that `marshal` placed there, the equality trait is an
equivalence relation and `deserialize(serialize(x))` is equal to `x` per the
trait for every `x`, then `marshal(document)` followed by
`unmarshalFrom(document)` returns true and leaves `getValue()` equal, per the
trait, to the value held before the marshal. -/
theorem marshal_unmarshalFrom_round_trip {T J D : Type} (doc : Document D J)
    (tr : Traits T J) (s : SettingData T) (document : D)
    (hplaced : s.get doc (s.marshal doc tr document) = some (s.marshalInto tr))
    (hequiv : Equivalence (fun a b : T => tr.isEqual a b = true))
    (hround : ∀ x : T, tr.isEqual (tr.deserialize (tr.serialize x)) x = true) :
    (s.unmarshalFrom doc tr (s.marshal doc tr document)).1 = true ∧
      tr.isEqual (s.unmarshalFrom doc tr (s.marshal doc tr document)).2.node.getValue
        s.getValue = true ∧
      tr.isEqual s.getValue
        (s.unmarshalFrom doc tr (s.marshal doc tr document)).2.node.getValue = true := by
  by_cases h : tr.isEqual s.value (tr.deserialize (tr.serialize s.value)) = true
  · have hrefl : tr.isEqual s.value s.value = true := hequiv.refl s.value
    simp [unmarshalFrom, hplaced, marshalInto, getValue, setValue_of_eq tr s _ _ h, hrefl]
  · have hne : tr.isEqual s.value (tr.deserialize (tr.serialize s.value)) = false := by
      simpa using h
    have hback : tr.isEqual s.value (tr.deserialize (tr.serialize s.value)) = true :=
      hequiv.symm (hround s.value)
    simp [unmarshalFrom, hplaced, marshalInto, getValue, setValue_of_ne tr s _ _ hne,
      hround s.value, hback]

/-- The equality trait of `natTraits` is an equivalence relation. -/
theorem natTraits_isEqual_equivalence :
    Equivalence (fun a b : Nat => natTraits.isEqual a b = true) := by
  constructor
  · intro x
    simp [natTraits]
  · intro x y h
    simp [natTraits] at h ⊢
    exact h.symm
  · intro x y z hxy hyz
    simp [natTraits] at hxy hyz ⊢
    exact hxy.trans hyz

/-- Witness of C9: the node holding 10 marshals into a document that already
holds 3 at its path and another entry, then unmarshals from it. -/
theorem marshal_unmarshalFrom_round_trip_witness :
    overriddenNode.get flatDocument
        (overriddenNode.marshal flatDocument natTraits [("/a", 3), ("/b", 4)]) =
        some (overriddenNode.marshalInto natTraits) ∧
      Equivalence (fun a b : Nat => natTraits.isEqual a b = true) ∧
      (∀ x : Nat, natTraits.isEqual (natTraits.deserialize (natTraits.serialize x)) x = true) ∧
      ((overriddenNode.unmarshalFrom flatDocument natTraits
            (overriddenNode.marshal flatDocument natTraits [("/a", 3), ("/b", 4)])).1 = true ∧
        natTraits.isEqual
          (overriddenNode.unmarshalFrom flatDocument natTraits
            (overriddenNode.marshal flatDocument natTraits
              [("/a", 3), ("/b", 4)])).2.node.getValue
          overriddenNode.getValue = true ∧
        natTraits.isEqual overriddenNode.getValue
          (overriddenNode.unmarshalFrom flatDocument natTraits
            (overriddenNode.marshal flatDocument natTraits
              [("/a", 3), ("/b", 4)])).2.node.getValue = true) :=
  ⟨by decide, natTraits_isEqual_equivalence, fun x => by simp [natTraits],
    marshal_unmarshalFrom_round_trip flatDocument natTraits overriddenNode
      [("/a", 3), ("/b", 4)] (by decide) natTraits_isEqual_equivalence
      (fun x => by simp [natTraits])⟩

/-- C10: all-bits option test.  `optionEnabled(f)` on a node with options `o` is
true iff `(o & f) == f`, that is iff every bit of `f` is set in `o`; so
`optionEnabled(Default)` is always true, and `optionEnabled(a | b)` is true iff
`optionEnabled(a)` and `optionEnabled(b)` both are.  It is not the any-bit test:
a node with `DoNotWriteToJSON` alone shares a bit with
`DoNotWriteToJSON | SaveInitialValue` and still answers false.  Masks are
natural numbers, which covers every 64-bit mask. -/
theorem optionEnabled_all_bits {T : Type} (s : SettingData T) :
    (∀ f : Nat, (s.optionEnabled f = true ↔ s.options &&& f = f) ∧
        (s.optionEnabled f = true ↔ ∀ i, f.testBit i = true → s.options.testBit i = true)) ∧
      s.optionEnabled SettingOption.Default = true ∧
      (∀ a b : Nat, s.optionEnabled (SettingOption.or a b) = true ↔
        (s.optionEnabled a = true ∧ s.optionEnabled b = true)) ∧
      (SettingOption.and SettingOption.DoNotWriteToJSON
          (SettingOption.or SettingOption.DoNotWriteToJSON SettingOption.SaveInitialValue) ≠ 0 ∧
        ({ s with options := SettingOption.DoNotWriteToJSON }).optionEnabled
          (SettingOption.or SettingOption.DoNotWriteToJSON SettingOption.SaveInitialValue)
          = false) := by
  have hiff : ∀ f : Nat, s.optionEnabled f = true ↔ s.options &&& f = f := by
    intro f
    simp [optionEnabled, SettingOption.and]
  refine ⟨fun f => ⟨hiff f, (hiff f).trans (land_eq_right_iff _ _)⟩, ?_, ?_, ?_⟩
  · simp [optionEnabled, SettingOption.and, SettingOption.Default]
  · intro a b
    rw [hiff, hiff, hiff, land_eq_right_iff, land_eq_right_iff, land_eq_right_iff]
    simp only [SettingOption.or, Nat.testBit_or, Bool.or_eq_true]
    constructor
    · intro h
      exact ⟨fun i hi => h i (Or.inl hi), fun i hi => h i (Or.inr hi)⟩
    · rintro ⟨ha, hb⟩ i (hi | hi)
      · exact ha i hi
      · exact hb i hi
  · constructor
    · decide
    · simp only [optionEnabled]
      decide

/-- C11: construction postconditions.  A node constructed from `d` alone (copy
or move form) has `getDefaultValue() == d`, `getValue() == d` and
`hasBeenSet() == false`; a node constructed from `(d, c)` (copy or move form) has
`getDefaultValue() == d`, `getValue() == c` and `hasBeenSet() == false`; in each
case the options are `Default`, none of the four flags is enabled, and no signal
has been invoked. -/
theorem construction_postconditions {T : Type} (d c : T) :
    ((fromDefault d).node.getDefaultValue = d ∧ (fromDefault d).node.getValue = d ∧
        (fromDefault d).node.hasBeenSet = false ∧
        (fromDefaultMoved d).node.getDefaultValue = d ∧
        (fromDefaultMoved d).node.getValue = d ∧
        (fromDefaultMoved d).node.hasBeenSet = false) ∧
      ((fromDefaultAndCurrent d c).node.getDefaultValue = d ∧
        (fromDefaultAndCurrent d c).node.getValue = c ∧
        (fromDefaultAndCurrent d c).node.hasBeenSet = false ∧
        (fromDefaultAndCurrentMoved d c).node.getDefaultValue = d ∧
        (fromDefaultAndCurrentMoved d c).node.getValue = c ∧
        (fromDefaultAndCurrentMoved d c).node.hasBeenSet = false) ∧
      (∀ e ∈ [fromDefault d, fromDefaultMoved d, fromDefaultAndCurrent d c,
            fromDefaultAndCurrentMoved d c],
        e.node.options = SettingOption.Default ∧
          e.node.optionEnabled SettingOption.DoNotWriteToJSON = false ∧
          e.node.optionEnabled SettingOption.ForceSetOptions = false ∧
          e.node.optionEnabled SettingOption.SaveInitialValue = false ∧
          e.node.optionEnabled SettingOption.Remote = false ∧
          e.invoked = []) := by
  refine ⟨by simp [fromDefault, fromDefaultMoved, getDefaultValue, getValue, hasBeenSet],
    by simp [fromDefaultAndCurrent, fromDefaultAndCurrentMoved, getDefaultValue, getValue,
      hasBeenSet], ?_⟩
  intro e he
  have hflags : SettingOption.and SettingOption.Default SettingOption.DoNotWriteToJSON
        ≠ SettingOption.DoNotWriteToJSON ∧
      SettingOption.and SettingOption.Default SettingOption.ForceSetOptions
        ≠ SettingOption.ForceSetOptions ∧
      SettingOption.and SettingOption.Default SettingOption.SaveInitialValue
        ≠ SettingOption.SaveInitialValue ∧
      SettingOption.and SettingOption.Default SettingOption.Remote
        ≠ SettingOption.Remote := by decide
  simp only [List.mem_cons, List.mem_singleton, List.not_mem_nil, or_false] at he
  rcases he with rfl | rfl | rfl | rfl <;>
    simp [fromDefault, fromDefaultMoved, fromDefaultAndCurrent, fromDefaultAndCurrentMoved,
      optionEnabled, hflags]

/-- C12: `setDefaultValue` frame.  `setDefaultValue(n)` makes `getDefaultValue()`
return `n`, leaves `getValue()`, `hasBeenSet()`, the path and the options as
they were, whatever the current value and the old default, and invokes no
signal. -/
theorem setDefaultValue_frame {T : Type} (s : SettingData T) (n : T) :
    (s.setDefaultValue n).node.getDefaultValue = n ∧
      (s.setDefaultValue n).node.getValue = s.getValue ∧
      (s.setDefaultValue n).node.hasBeenSet = s.hasBeenSet ∧
      (s.setDefaultValue n).node.getPath = s.getPath ∧
      (s.setDefaultValue n).node.options = s.options ∧
      (s.setDefaultValue n).invoked = [] := by
  simp [setDefaultValue, getDefaultValue, getValue, hasBeenSet, getPath]

/-- C16: unmarshal obeys equality suppression.  With `j` the JSON value found at
the node's path by `unmarshalFrom`, or given directly to `unmarshalValue`: when
the equality trait reports the current value equal to `deserialize(j)` the
unmarshal invokes no signal and leaves the stored value and `hasBeenSet()` as
they were; when it reports them different the unmarshal invokes the typed signal
and then the type-erased signal, once each, as an accepted `setValue` does. -/
theorem unmarshal_equality_suppression {T J D : Type} (doc : Document D J)
    (tr : Traits T J) (s : SettingData T) (document : D) (j : J)
    (hsome : s.get doc document = some j) :
    (tr.isEqual s.getValue (tr.deserialize j) = true →
        ((s.unmarshalFrom doc tr document).2.invoked = [] ∧
          (s.unmarshalFrom doc tr document).2.node.getValue = s.getValue ∧
          (s.unmarshalFrom doc tr document).2.node.hasBeenSet = s.hasBeenSet) ∧
        ((s.unmarshalValue tr j).2.invoked = [] ∧
          (s.unmarshalValue tr j).2.node.getValue = s.getValue ∧
          (s.unmarshalValue tr j).2.node.hasBeenSet = s.hasBeenSet)) ∧
      (tr.isEqual s.getValue (tr.deserialize j) = false →
        ∃ m : SignalArgs,
          (s.unmarshalFrom doc tr document).2.invoked =
              [Invocation.valueChanged (tr.deserialize j) m,
                Invocation.simpleValueChanged m] ∧
            (s.unmarshalValue tr j).2.invoked =
              [Invocation.valueChanged (tr.deserialize j) m,
                Invocation.simpleValueChanged m] ∧
            (s.unmarshalFrom doc tr document).2.invoked =
              (s.setValue tr (tr.deserialize j) m).invoked) := by
  constructor
  · intro h
    simp [unmarshalFrom, unmarshalValue, hsome, setValue_of_eq tr s _ _ h]
  · intro h
    simp [unmarshalFrom, unmarshalValue, hsome, setValue_of_ne tr s _ _ h, getPath]

/-- Witness of C16: the node holding 10 finds 20 at its path, which the
modulo-ten trait reports equal (suppressed), and finds 3, which it reports
different (both signals). -/
theorem unmarshal_equality_suppression_witness :
    (overriddenNode.get flatDocument [("/a", 20)] = some 20 ∧
        modTenTraits.isEqual overriddenNode.getValue (modTenTraits.deserialize 20) = true ∧
        (overriddenNode.unmarshalFrom flatDocument modTenTraits [("/a", 20)]).2.invoked = [] ∧
        (overriddenNode.unmarshalValue modTenTraits 20).2.node.hasBeenSet = false) ∧
      (overriddenNode.get flatDocument [("/a", 3)] = some 3 ∧
        modTenTraits.isEqual overriddenNode.getValue (modTenTraits.deserialize 3) = false ∧
        ∃ m : SignalArgs,
          (overriddenNode.unmarshalFrom flatDocument modTenTraits [("/a", 3)]).2.invoked =
            [Invocation.valueChanged (modTenTraits.deserialize 3) m,
              Invocation.simpleValueChanged m]) :=
  ⟨⟨by decide, by decide,
      (((unmarshal_equality_suppression flatDocument modTenTraits overriddenNode
        [("/a", 20)] 20 (by decide)).1 (by decide)).1).1,
      (((unmarshal_equality_suppression flatDocument modTenTraits overriddenNode
        [("/a", 20)] 20 (by decide)).1 (by decide)).2).2.2⟩,
    ⟨by decide, by decide,
      (((unmarshal_equality_suppression flatDocument modTenTraits overriddenNode
        [("/a", 3)] 3 (by decide)).2 (by decide)).imp fun _ h => h.1)⟩⟩

/-- C17: `unmarshalValue` agrees with `unmarshalFrom` once the path is resolved.
When the node's path resolves to the JSON value `j`, `unmarshalFrom(document)`
and `unmarshalValue(j)` return the same result, true, leave the same node and
make the same signal invocations with the same metadata; and `unmarshalValue`
returns true for every JSON value. -/
theorem unmarshalFrom_eq_unmarshalValue {T J D : Type} (doc : Document D J)
    (tr : Traits T J) (s : SettingData T) (document : D) (j : J)
    (hsome : s.get doc document = some j) :
    s.unmarshalFrom doc tr document = s.unmarshalValue tr j ∧
      (s.unmarshalFrom doc tr document).1 = true ∧
      (s.unmarshalFrom doc tr document).2.node = (s.unmarshalValue tr j).2.node ∧
      (s.unmarshalFrom doc tr document).2.invoked = (s.unmarshalValue tr j).2.invoked ∧
      ∀ j' : J, (s.unmarshalValue tr j').1 = true := by
  simp [unmarshalFrom, unmarshalValue, hsome]

/-- Witness of C17: the never-set node finds 3 at its path. -/
theorem unmarshalFrom_eq_unmarshalValue_witness :
    freshNode.get flatDocument [("/a", 3)] = some 3 ∧
      (freshNode.unmarshalFrom flatDocument natTraits [("/a", 3)] =
          freshNode.unmarshalValue natTraits 3 ∧
        (freshNode.unmarshalFrom flatDocument natTraits [("/a", 3)]).1 = true ∧
        (freshNode.unmarshalFrom flatDocument natTraits [("/a", 3)]).2.node =
          (freshNode.unmarshalValue natTraits 3).2.node ∧
        (freshNode.unmarshalFrom flatDocument natTraits [("/a", 3)]).2.invoked =
          (freshNode.unmarshalValue natTraits 3).2.invoked ∧
        ∀ j' : Nat, (freshNode.unmarshalValue natTraits j').1 = true) :=
  ⟨by decide,
    unmarshalFrom_eq_unmarshalValue flatDocument natTraits freshNode [("/a", 3)] 3 (by decide)⟩

/-! ### The node with its signals connected -/

/-- With the signals connected, a suppressed `setValue` changes nothing at all. -/
theorem connected_setValue_of_eq {T J D : Type} (doc : Document D J) (tr : Traits T J)
    (fuel : Nat) (w : World T D) (v : T) (a : SignalArgs)
    (heq : tr.isEqual w.node.value v = true) :
    World.setValue doc tr (fuel + 1) w v a = some w := by
  simp [World.setValue, setValue_of_eq tr w.node v a heq, World.invokeAll]

/-- Callbacks that leave the node alone all return; they keep the node, the
connections and the record of invocations, write only to the documents they
were registered for, and leave a marshalled document marshalled. -/
theorem callAll_passive {T J D : Type} (doc : Document D J) (tr : Traits T J)
    (reenter : World T D → T → SignalArgs → Option (World T D)) (slots : List (Slot T))
    (hp : ∀ slot ∈ slots, slot.passive = true) (w : World T D) :
    ∃ w₁, World.callAll doc tr reenter slots w = some w₁ ∧ w₁.node = w.node ∧
      w₁.valueChanged = w.valueChanged ∧ w₁.simpleValueChanged = w.simpleValueChanged ∧
      w₁.invoked = w.invoked ∧
      ∀ d, (Slot.marshal d ∉ slots → w₁.documents d = w.documents d) ∧
        ((Slot.marshal d ∈ slots ∨ World.Marshalled doc tr w.node (w.documents d)) →
          World.Marshalled doc tr w.node (w₁.documents d)) := by
  induction slots generalizing w with
  | nil =>
    refine ⟨w, rfl, rfl, rfl, rfl, rfl, fun d => ⟨fun _ => rfl, ?_⟩⟩
    rintro (h | h)
    · simp at h
    · exact h
  | cons slot rest ih =>
    have hrest : ∀ slot ∈ rest, slot.passive = true :=
      fun x hx => hp x (List.mem_cons_of_mem _ hx)
    have hslot : slot.passive = true := hp slot (List.mem_cons_self _ _)
    cases slot with
    | setValue v a => simp [Slot.passive] at hslot
    | observe =>
      obtain ⟨w₁, h₁, hn, hv, hs, hi, hd⟩ := ih hrest w
      refine ⟨w₁, by simp [World.callAll, World.call, h₁], hn, hv, hs, hi, fun d => ?_⟩
      refine ⟨fun hnot => (hd d).1 (fun hmem => hnot (List.mem_cons_of_mem _ hmem)), ?_⟩
      rintro (h | h)
      · simp only [List.mem_cons, reduceCtorEq, false_or] at h
        exact (hd d).2 (Or.inl h)
      · exact (hd d).2 (Or.inr h)
    | marshal d' =>
      obtain ⟨w₁, h₁, hn, hv, hs, hi, hd⟩ := ih hrest (w.marshal doc tr d')
      have hnode : (w.marshal doc tr d').node = w.node := rfl
      rw [hnode] at hn hd
      refine ⟨w₁, by simp [World.callAll, World.call, h₁], hn, hv, hs, hi, fun d => ?_⟩
      constructor
      · intro hnot
        have hne : d ≠ d' := by
          intro h
          exact hnot (by simp [h])
        have hnr : Slot.marshal d ∉ rest := fun hmem => hnot (List.mem_cons_of_mem _ hmem)
        rw [(hd d).1 hnr]
        simp [World.marshal, Function.update_noteq hne]
      · intro h
        by_cases hdd : d = d'
        · subst hdd
          apply (hd d).2
          right
          exact ⟨w.documents d, by simp [World.marshal, SettingData.marshal,
            SettingData.marshalInto, SettingData.getValue]⟩
        · apply (hd d).2
          rcases h with h | h
          · left
            simp only [List.mem_cons, Slot.marshal.injEq] at h
            rcases h with h | h
            · exact absurd h hdd
            · exact h
          · right
            simpa [World.marshal, Function.update_noteq hdd] using h

/-- With only callbacks that leave the node alone connected, an accepted
`setValue` returns: the node is the one `SettingData.setValue` leaves, the
connections are kept, the two invocations are recorded, and every document a
`registerDocument` callback refers to has been marshalled from the new node. -/
theorem connected_setValue_of_ne_passive {T J D : Type} (doc : Document D J)
    (tr : Traits T J) (fuel : Nat) (w : World T D) (v : T) (a : SignalArgs)
    (hpv : ∀ slot ∈ w.valueChanged, slot.passive = true)
    (hps : ∀ slot ∈ w.simpleValueChanged, slot.passive = true)
    (hne : tr.isEqual w.node.value v = false) :
    ∃ w₁, World.setValue doc tr (fuel + 1) w v a = some w₁ ∧
      w₁.node = { w.node with valueHasBeenSet := true, value := v } ∧
      w₁.valueChanged = w.valueChanged ∧ w₁.simpleValueChanged = w.simpleValueChanged ∧
      w₁.invoked = w.invoked ++ (w.node.setValue tr v a).invoked ∧
      ∀ d, (Slot.marshal d ∉ w.valueChanged → Slot.marshal d ∉ w.simpleValueChanged →
            w₁.documents d = w.documents d) ∧
        ((Slot.marshal d ∈ w.valueChanged ∨ Slot.marshal d ∈ w.simpleValueChanged) →
          World.Marshalled doc tr w₁.node (w₁.documents d)) := by
  have hset := setValue_of_ne tr w.node v a hne
  obtain ⟨w₂, h₂, hn₂, hv₂, hs₂, hi₂, hd₂⟩ :=
    callAll_passive doc tr (World.setValue doc tr fuel) w.valueChanged hpv
      { w with
        node := { w.node with valueHasBeenSet := true, value := v }
        invoked := w.invoked ++
          [Invocation.valueChanged v
            { source := if a.source = Source.Unset then Source.Setter else a.source
              path := w.node.path }] }
  obtain ⟨w₃, h₃, hn₃, hv₃, hs₃, hi₃, hd₃⟩ :=
    callAll_passive doc tr (World.setValue doc tr fuel) w.simpleValueChanged hps
      { w₂ with
        invoked := w₂.invoked ++
          [Invocation.simpleValueChanged
            { source := if a.source = Source.Unset then Source.Setter else a.source
              path := w.node.path }] }
  simp only at hn₂ hv₂ hs₂ hi₂ hn₃ hv₃ hs₃ hi₃ hd₂ hd₃
  rw [hs₂] at h₃
  refine ⟨w₃, ?_, hn₃.trans hn₂, hv₃.trans hv₂, hs₃.trans hs₂, ?_, fun d => ⟨?_, ?_⟩⟩
  · simp [World.setValue, hset, World.invokeAll, World.invoke, h₂, hs₂, h₃]
  · simp [hi₃, hi₂, hset]
  · intro hnv hns
    rw [(hd₃ d).1 hns, (hd₂ d).1 hnv]
  · intro h
    rw [hn₃.trans hn₂]
    have h₃' := (hd₃ d).2
    rw [hn₂] at h₃'
    apply h₃'
    rcases h with h | h
    · exact Or.inr ((hd₂ d).2 (Or.inl h))
    · exact Or.inl h

/-- Calling the callbacks of two lists in a row. -/
theorem callAll_append {T J D : Type} (doc : Document D J) (tr : Traits T J)
    (reenter : World T D → T → SignalArgs → Option (World T D)) (xs ys : List (Slot T))
    (w : World T D) :
    World.callAll doc tr reenter (xs ++ ys) w =
      (World.callAll doc tr reenter xs w).bind (World.callAll doc tr reenter ys) := by
  induction xs generalizing w with
  | nil => simp [World.callAll]
  | cons x rest ih =>
    simp only [List.cons_append, World.callAll]
    cases h : World.call doc tr reenter w x with
    | none => simp
    | some w₁ => simp [ih]

/-- Calling callbacks keeps `valueHasBeenSet` true when a nested `setValue`
does. -/
theorem callAll_keeps_flag {T J D : Type} (doc : Document D J) (tr : Traits T J)
    (reenter : World T D → T → SignalArgs → Option (World T D))
    (hre : ∀ x v a x₁, x.node.valueHasBeenSet = true → reenter x v a = some x₁ →
      x₁.node.valueHasBeenSet = true)
    (slots : List (Slot T)) (w w₁ : World T D) (hw : w.node.valueHasBeenSet = true)
    (h : World.callAll doc tr reenter slots w = some w₁) :
    w₁.node.valueHasBeenSet = true := by
  induction slots generalizing w with
  | nil =>
    simp only [World.callAll, Option.some.injEq] at h
    rw [← h]
    exact hw
  | cons slot rest ih =>
    simp only [World.callAll] at h
    cases hc : World.call doc tr reenter w slot with
    | none => simp [hc] at h
    | some w₂ =>
      rw [hc] at h
      refine ih w₂ ?_ h
      cases slot with
      | marshal d =>
        simp only [World.call, Option.some.injEq] at hc
        rw [← hc]
        exact hw
      | setValue v a => exact hre w v a w₂ hw hc
      | observe =>
        simp only [World.call, Option.some.injEq] at hc
        rw [← hc]
        exact hw

/-- Making invocations keeps `valueHasBeenSet` true when a nested `setValue`
does. -/
theorem invokeAll_keeps_flag {T J D : Type} (doc : Document D J) (tr : Traits T J)
    (reenter : World T D → T → SignalArgs → Option (World T D))
    (hre : ∀ x v a x₁, x.node.valueHasBeenSet = true → reenter x v a = some x₁ →
      x₁.node.valueHasBeenSet = true)
    (is : List (Invocation T)) (w w₁ : World T D) (hw : w.node.valueHasBeenSet = true)
    (h : World.invokeAll doc tr reenter is w = some w₁) :
    w₁.node.valueHasBeenSet = true := by
  induction is generalizing w with
  | nil =>
    simp only [World.invokeAll, Option.some.injEq] at h
    rw [← h]
    exact hw
  | cons i rest ih =>
    simp only [World.invokeAll] at h
    cases hc : World.invoke doc tr reenter w i with
    | none => simp [hc] at h
    | some w₂ =>
      rw [hc] at h
      refine ih w₂ ?_ h
      cases i with
      | valueChanged v a =>
        simp only [World.invoke] at hc
        exact callAll_keeps_flag doc tr reenter hre _ _ w₂ (by exact hw) hc
      | simpleValueChanged a =>
        simp only [World.invoke] at hc
        exact callAll_keeps_flag doc tr reenter hre _ _ w₂ (by exact hw) hc

/-- The node `SettingData.setValue` leaves has `valueHasBeenSet` true when it
was true before. -/
theorem setValue_node_keeps_flag {T J : Type} (tr : Traits T J) (s : SettingData T) (v : T)
    (a : SignalArgs) (hs : s.valueHasBeenSet = true) :
    (s.setValue tr v a).node.valueHasBeenSet = true := by
  by_cases h : tr.isEqual s.value v = true
  · simp [setValue_of_eq tr s v a h, hs]
  · have hne : tr.isEqual s.value v = false := by simpa using h
    simp [setValue_of_ne tr s v a hne]

/-- With any callbacks connected, a `setValue` that returns keeps
`valueHasBeenSet` true. -/
theorem connected_setValue_keeps_flag {T J D : Type} (doc : Document D J) (tr : Traits T J)
    (fuel : Nat) (w : World T D) (v : T) (a : SignalArgs) (w₁ : World T D)
    (hw : w.node.valueHasBeenSet = true)
    (h : World.setValue doc tr fuel w v a = some w₁) :
    w₁.node.valueHasBeenSet = true := by
  induction fuel generalizing w v a w₁ with
  | zero => simp [World.setValue] at h
  | succ fuel ih =>
    simp only [World.setValue] at h
    exact invokeAll_keeps_flag doc tr (World.setValue doc tr fuel)
      (fun x v' a' x₁ hx hx₁ => ih x v' a' x₁ hx hx₁) _ _ w₁
      (setValue_node_keeps_flag tr w.node v a hw) h

/-- Callbacks around one subscriber that calls `setValue(wv, m)`: when that call
returns with node `n₂` and the connections kept, so does the whole delivery. -/
theorem callAll_reentrant {T J D : Type} (doc : Document D J) (tr : Traits T J)
    (reenter : World T D → T → SignalArgs → Option (World T D))
    (pre post vc sc : List (Slot T)) (wv : T) (m : SignalArgs)
    (hpre : ∀ slot ∈ pre, slot.passive = true) (hpost : ∀ slot ∈ post, slot.passive = true)
    (n₁ n₂ : SettingData T)
    (hre : ∀ x : World T D, x.node = n₁ → x.valueChanged = vc → x.simpleValueChanged = sc →
      ∃ x₁, reenter x wv m = some x₁ ∧ x₁.node = n₂ ∧ x₁.valueChanged = vc ∧
        x₁.simpleValueChanged = sc)
    (w : World T D) (hn : w.node = n₁) (hv : w.valueChanged = vc)
    (hs : w.simpleValueChanged = sc) :
    ∃ w₁, World.callAll doc tr reenter (pre ++ Slot.setValue wv m :: post) w = some w₁ ∧
      w₁.node = n₂ ∧ w₁.valueChanged = vc ∧ w₁.simpleValueChanged = sc := by
  obtain ⟨w₂, h₂, hn₂, hv₂, hs₂, -, -⟩ := callAll_passive doc tr reenter pre hpre w
  obtain ⟨w₃, h₃, hn₃, hv₃, hs₃⟩ := hre w₂ (hn₂.trans hn) (hv₂.trans hv) (hs₂.trans hs)
  obtain ⟨w₄, h₄, hn₄, hv₄, hs₄, -, -⟩ := callAll_passive doc tr reenter post hpost w₃
  refine ⟨w₄, ?_, hn₄.trans hn₃, hv₄.trans hv₃, hs₄.trans hs₃⟩
  simp [callAll_append, h₂, World.callAll, World.call, h₃, h₄]

/-- An accepted `setValue` on a node with one subscriber that calls
`setValue(wv, m)` among callbacks that leave the node alone: when the nested
call returns with node `n₂`, the outer call returns with node `n₂`. -/
theorem connected_setValue_reentrant {T J D : Type} (doc : Document D J) (tr : Traits T J)
    (fuel : Nat) (pre post sc : List (Slot T)) (wv : T) (m : SignalArgs)
    (hpre : ∀ slot ∈ pre, slot.passive = true) (hpost : ∀ slot ∈ post, slot.passive = true)
    (hsc : ∀ slot ∈ sc, slot.passive = true)
    (w : World T D) (hv : w.valueChanged = pre ++ Slot.setValue wv m :: post)
    (hs : w.simpleValueChanged = sc) (v : T) (a : SignalArgs)
    (hne : tr.isEqual w.node.value v = false) (n₂ : SettingData T)
    (hre : ∀ x : World T D, x.node = { w.node with valueHasBeenSet := true, value := v } →
      x.valueChanged = pre ++ Slot.setValue wv m :: post → x.simpleValueChanged = sc →
      ∃ x₁, World.setValue doc tr fuel x wv m = some x₁ ∧ x₁.node = n₂ ∧
        x₁.valueChanged = pre ++ Slot.setValue wv m :: post ∧ x₁.simpleValueChanged = sc) :
    ∃ w₁, World.setValue doc tr (fuel + 1) w v a = some w₁ ∧ w₁.node = n₂ ∧
      w₁.valueChanged = pre ++ Slot.setValue wv m :: post ∧ w₁.simpleValueChanged = sc := by
  have hset := setValue_of_ne tr w.node v a hne
  obtain ⟨w₂, h₂, hn₂, hv₂, hs₂⟩ :=
    callAll_reentrant doc tr (World.setValue doc tr fuel) pre post
      (pre ++ Slot.setValue wv m :: post) sc wv m hpre hpost _ n₂ hre
      { w with
        node := { w.node with valueHasBeenSet := true, value := v }
        invoked := w.invoked ++
          [Invocation.valueChanged v
            { source := if a.source = Source.Unset then Source.Setter else a.source
              path := w.node.path }] }
      rfl hv hs
  obtain ⟨w₃, h₃, hn₃, hv₃, hs₃, -, -⟩ :=
    callAll_passive doc tr (World.setValue doc tr fuel) sc hsc
      { w₂ with
        invoked := w₂.invoked ++
          [Invocation.simpleValueChanged
            { source := if a.source = Source.Unset then Source.Setter else a.source
              path := w.node.path }] }
  simp only at hn₃ hv₃ hs₃
  refine ⟨w₃, ?_, hn₃.trans hn₂, hv₃.trans hv₂, hs₃.trans hs₂⟩
  rw [hs₂] at h₃
  rw [← hv] at h₂
  simp [World.setValue, hset, World.invokeAll, World.invoke, h₂, hs₂, h₃]

/-- What `registerDocument` does to the node and the connections: it connects
one `marshal` callback to the typed signal and nothing else. -/
theorem registerDocument_connections {T J D : Type} (doc : Document D J) (tr : Traits T J)
    (w : World T D) (d : Nat) :
    (w.registerDocument doc tr d).node = w.node ∧
      (w.registerDocument doc tr d).valueChanged = w.valueChanged ++ [Slot.marshal d] ∧
      (w.registerDocument doc tr d).simpleValueChanged = w.simpleValueChanged ∧
      (w.registerDocument doc tr d).invoked = w.invoked := by
  by_cases h : w.node.optionEnabled SettingOption.SaveInitialValue = true <;>
    simp [World.registerDocument, World.marshal, h]

/-- C13: save-initial-value on registration.  On a node whose options include
`SaveInitialValue`, set or never set, `registerDocument(document)` places
`serialize(getValue())` at the node's path, so that the document holds it there
(the document returning at a path what was just placed there); on a node whose
options do not include `SaveInitialValue` it leaves every document as it was.
The node itself is not changed and no signal is invoked. -/
theorem registerDocument_save_initial_value {T J D : Type} (doc : Document D J)
    (tr : Traits T J) (w : World T D) (d : Nat)
    (hplaced : doc.lookup
        (doc.place (w.documents d) w.node.getPath (tr.serialize w.node.getValue))
        w.node.getPath = some (tr.serialize w.node.getValue)) :
    (w.node.optionEnabled SettingOption.SaveInitialValue = true →
        (w.registerDocument doc tr d).documents d =
            doc.place (w.documents d) w.node.getPath (tr.serialize w.node.getValue) ∧
          (w.registerDocument doc tr d).node.get doc ((w.registerDocument doc tr d).documents d)
            = some (tr.serialize (w.registerDocument doc tr d).node.getValue)) ∧
      (w.node.optionEnabled SettingOption.SaveInitialValue = false →
        (w.registerDocument doc tr d).documents = w.documents) ∧
      (w.registerDocument doc tr d).node = w.node ∧
      (w.registerDocument doc tr d).invoked = w.invoked := by
  refine ⟨fun h => ?_, fun h => ?_, (registerDocument_connections doc tr w d).1,
    (registerDocument_connections doc tr w d).2.2.2⟩
  · have hdoc : (w.registerDocument doc tr d).documents d =
        doc.place (w.documents d) w.node.getPath (tr.serialize w.node.getValue) := by
      simp [World.registerDocument, World.marshal, h, SettingData.marshal, marshalInto, getPath]
    refine ⟨hdoc, ?_⟩
    rw [hdoc, (registerDocument_connections doc tr w d).1]
    exact hplaced
  · simp [World.registerDocument, h]

/-- Witness of C13: a never-set node with `SaveInitialValue` registers the empty
document 0, and a node without the flag does. -/
theorem registerDocument_save_initial_value_witness :
    (flatDocument.lookup
          (flatDocument.place ((World.ofNode savingNode).documents 0) savingNode.getPath
            (natTraits.serialize savingNode.getValue))
          savingNode.getPath = some (natTraits.serialize savingNode.getValue) ∧
        savingNode.hasBeenSet = false ∧
        savingNode.optionEnabled SettingOption.SaveInitialValue = true ∧
        ((World.ofNode savingNode).registerDocument flatDocument natTraits 0).documents 0 =
          [("/a", 7)]) ∧
      (freshNode.optionEnabled SettingOption.SaveInitialValue = false ∧
        ((World.ofNode freshNode).registerDocument flatDocument natTraits 0).documents =
          (World.ofNode freshNode).documents) :=
  ⟨⟨by decide, by decide, by decide,
      ((registerDocument_save_initial_value flatDocument natTraits (World.ofNode savingNode) 0
        (by decide)).1 (by decide)).1.trans (by decide)⟩,
    ⟨by decide,
      (registerDocument_save_initial_value flatDocument natTraits (World.ofNode freshNode) 0
        (by decide)).2.1 (by decide)⟩⟩

/-- C14: `hasBeenSet` is monotone.  On a node whose `hasBeenSet()` is true, each
operation leaves it true: `setValue`, `resetToDefaultValue`, `unmarshalFrom`,
`unmarshalValue`, `setDefaultValue`, `setPath`, `marshal` and
`registerDocument`, with any arguments; and with any callbacks connected to the
signals, including callbacks that call `setValue` again, each of `setValue`,
`resetToDefaultValue`, `unmarshalFrom` and `unmarshalValue` that returns leaves
it true. -/
theorem hasBeenSet_monotone {T J D : Type} (doc : Document D J) (tr : Traits T J)
    (w : World T D) (hset : w.node.hasBeenSet = true) :
    ((∀ v m, (w.node.setValue tr v m).node.hasBeenSet = true) ∧
        (∀ m, (w.node.resetToDefaultValue tr m).node.hasBeenSet = true) ∧
        (∀ document : D, (w.node.unmarshalFrom doc tr document).2.node.hasBeenSet = true) ∧
        (∀ j, (w.node.unmarshalValue tr j).2.node.hasBeenSet = true) ∧
        (∀ n, (w.node.setDefaultValue n).node.hasBeenSet = true) ∧
        (∀ p, (w.node.setPath p).node.hasBeenSet = true) ∧
        (∀ d, (w.marshal doc tr d).node.hasBeenSet = true) ∧
        (∀ d, (w.registerDocument doc tr d).node.hasBeenSet = true)) ∧
      ((∀ fuel v m w₁, World.setValue doc tr fuel w v m = some w₁ →
          w₁.node.hasBeenSet = true) ∧
        (∀ fuel m w₁, World.resetToDefaultValue doc tr fuel w m = some w₁ →
          w₁.node.hasBeenSet = true) ∧
        (∀ fuel document b w₁, World.unmarshalFrom doc tr fuel w document = some (b, w₁) →
          w₁.node.hasBeenSet = true) ∧
        (∀ fuel j b w₁, World.unmarshalValue doc tr fuel w j = some (b, w₁) →
          w₁.node.hasBeenSet = true)) := by
  have hflag : w.node.valueHasBeenSet = true := hset
  have hnode : ∀ v m, (w.node.setValue tr v m).node.valueHasBeenSet = true :=
    fun v m => setValue_node_keeps_flag tr w.node v m hflag
  refine ⟨⟨hnode, ?_, ?_, ?_, ?_, ?_, ?_, ?_⟩, ?_, ?_, ?_, ?_⟩
  · intro m
    simp [resetToDefaultValue, hasBeenSet, hflag]
  · intro document
    cases hget : w.node.get doc document with
    | none => simp [unmarshalFrom, hget, hasBeenSet, hflag]
    | some j => simp [unmarshalFrom, hget, hasBeenSet, hnode]
  · intro j
    simp [unmarshalValue, hasBeenSet, hnode]
  · intro n
    simp [setDefaultValue, hasBeenSet, hflag]
  · intro p
    simp [setPath, hasBeenSet, hflag]
  · intro d
    simp [World.marshal, hasBeenSet, hflag]
  · intro d
    simp [(registerDocument_connections doc tr w d).1, hasBeenSet, hflag]
  · intro fuel v m w₁ h
    exact connected_setValue_keeps_flag doc tr fuel w v m w₁ hflag h
  · intro fuel m w₁ h
    simp only [World.resetToDefaultValue, Option.map_eq_some'] at h
    obtain ⟨x, -, hx⟩ := h
    rw [← hx]
    exact hflag
  · intro fuel document b w₁ h
    cases hget : w.node.get doc (w.documents document) with
    | none =>
      simp only [World.unmarshalFrom, hget, Option.some.injEq, Prod.mk.injEq] at h
      rw [← h.2]
      exact hflag
    | some j =>
      simp only [World.unmarshalFrom, hget, Option.map_eq_some', Prod.mk.injEq] at h
      obtain ⟨x, hx, -, hxw⟩ := h
      rw [← hxw]
      exact connected_setValue_keeps_flag doc tr fuel w _ _ x hflag hx
  · intro fuel j b w₁ h
    simp only [World.unmarshalValue, Option.map_eq_some', Prod.mk.injEq] at h
    obtain ⟨x, hx, -, hxw⟩ := h
    rw [← hxw]
    exact connected_setValue_keeps_flag doc tr fuel w _ _ x hflag hx

/-- Witness of C14: the node that has been set to 5, with a callback connected
that sets it to 9 whenever it changes. -/
theorem hasBeenSet_monotone_witness :
    ({ World.ofNode touchedNode with valueChanged := [Slot.setValue 9 { }] } :
        World Nat (List (String × Nat))).node.hasBeenSet = true ∧
      (touchedNode.resetToDefaultValue natTraits { }).node.hasBeenSet = true ∧
      ∀ w₁, World.resetToDefaultValue flatDocument natTraits 3
          { World.ofNode touchedNode with valueChanged := [Slot.setValue 9 { }] } { } = some w₁ →
        w₁.node.hasBeenSet = true :=
  ⟨by decide,
    (hasBeenSet_monotone flatDocument natTraits
      { World.ofNode touchedNode with valueChanged := [Slot.setValue 9 { }] }
      (by decide)).1.2.1 { },
    (hasBeenSet_monotone flatDocument natTraits
      { World.ofNode touchedNode with valueChanged := [Slot.setValue 9 { }] }
      (by decide)).2.2.1 3 { }⟩

/-- The flat document returns at a path what was placed there. -/
theorem flatDocument_lookup_place (d₀ : List (String × Nat)) (p : String) (j : Nat) :
    flatDocument.lookup (flatDocument.place d₀ p j) p = some j := by
  simp [flatDocument]

/-- C15: auto-persist writes the new value.  On a node on which
`registerDocument(document)` has been called (its callback is connected to the
typed signal; the connected callbacks leave the node alone; the document
returns at the node's path what was placed there), every accepted
`setValue(v, metadata)` returns with the document holding `serialize(v)` at the
node's path, and every suppressed `setValue` returns with every document as it
was. -/
theorem registerDocument_auto_persist {T J D : Type} (doc : Document D J)
    (tr : Traits T J) (w : World T D) (d : Nat)
    (hpv : ∀ slot ∈ w.valueChanged, slot.passive = true)
    (hps : ∀ slot ∈ w.simpleValueChanged, slot.passive = true)
    (hreg : Slot.marshal d ∈ w.valueChanged)
    (hlaw : ∀ (d₀ : D) (j : J),
      doc.lookup (doc.place d₀ w.node.getPath j) w.node.getPath = some j) :
    (∀ fuel v m, tr.isEqual w.node.getValue v = false →
        ∃ w₁, World.setValue doc tr (fuel + 1) w v m = some w₁ ∧ w₁.node.getValue = v ∧
          w₁.node.get doc (w₁.documents d) = some (tr.serialize v)) ∧
      (∀ fuel v m, tr.isEqual w.node.getValue v = true →
        ∃ w₁, World.setValue doc tr (fuel + 1) w v m = some w₁ ∧
          w₁.documents = w.documents) ∧
      ∀ w₀ : World T D, Slot.marshal d ∈ (w₀.registerDocument doc tr d).valueChanged := by
  refine ⟨fun fuel v m hne => ?_, fun fuel v m heq => ?_, fun w₀ => ?_⟩
  · obtain ⟨w₁, h₁, hn, -, -, -, hd⟩ :=
      connected_setValue_of_ne_passive doc tr fuel w v m hpv hps hne
    obtain ⟨d₀, hd₀⟩ := (hd d).2 (Or.inl hreg)
    refine ⟨w₁, h₁, by simp [hn, getValue], ?_⟩
    rw [hd₀, hn]
    exact hlaw d₀ (tr.serialize v)
  · exact ⟨w, connected_setValue_of_eq doc tr fuel w v m heq, rfl⟩
  · simp [(registerDocument_connections doc tr w₀ d).2.1]

/-- Witness of C15: the never-set node registers document 0, which holds 3 at
its path, and is then set to 5. -/
theorem registerDocument_auto_persist_witness :
    (∀ slot ∈ ((World.ofNode freshNode).registerDocument flatDocument natTraits 0).valueChanged,
        slot.passive = true) ∧
      Slot.marshal 0 ∈
        ((World.ofNode freshNode).registerDocument flatDocument natTraits 0).valueChanged ∧
      natTraits.isEqual
        ((World.ofNode freshNode).registerDocument flatDocument natTraits 0).node.getValue 5
        = false ∧
      ∃ w₁, World.setValue flatDocument natTraits 1
          ((World.ofNode freshNode).registerDocument flatDocument natTraits 0) 5 { } = some w₁ ∧
        w₁.node.getValue = 5 ∧
        w₁.node.get flatDocument (w₁.documents 0) = some (natTraits.serialize 5) :=
  ⟨by decide, by decide, by decide,
    (registerDocument_auto_persist flatDocument natTraits
      ((World.ofNode freshNode).registerDocument flatDocument natTraits 0) 0
      (by decide) (by decide) (by decide)
      (fun d₀ j => flatDocument_lookup_place d₀ _ j)).1 0 5 { } (by decide)⟩

/-- C20: a re-entrant set during a reset is not recorded.  On a node with
`hasBeenSet() == false` whose current value differs from its default, with a
subscriber of the typed signal that reacts to a delivery by calling
`setValue(wv, m)` on the node, `wv` different from the default (and the trait
reporting `wv` equal to itself, which is what ends the nesting; the other
callbacks leave the node alone): `resetToDefaultValue` returns with `getValue()`
equal to `wv` and `hasBeenSet()` false, while the plain `setValue` of the
default returns with the same value and `hasBeenSet()` true, as does every
accepted plain `setValue`. -/
theorem reentrant_setValue_in_reset_not_recorded {T J D : Type} (doc : Document D J)
    (tr : Traits T J) (fuel : Nat) (pre post : List (Slot T)) (wv : T) (m : SignalArgs)
    (w : World T D)
    (hpre : ∀ slot ∈ pre, slot.passive = true) (hpost : ∀ slot ∈ post, slot.passive = true)
    (hvc : w.valueChanged = pre ++ Slot.setValue wv m :: post)
    (hps : ∀ slot ∈ w.simpleValueChanged, slot.passive = true)
    (hflag : w.node.hasBeenSet = false)
    (hcur : tr.isEqual w.node.getValue w.node.getDefaultValue = false)
    (hwv : tr.isEqual w.node.getDefaultValue wv = false)
    (hrefl : tr.isEqual wv wv = true) (a : SignalArgs) :
    (∃ w₁, World.resetToDefaultValue doc tr (fuel + 3) w a = some w₁ ∧
        w₁.node.getValue = wv ∧ w₁.node.hasBeenSet = false) ∧
      (∃ w₁, World.setValue doc tr (fuel + 3) w w.node.getDefaultValue a = some w₁ ∧
        w₁.node.getValue = wv ∧ w₁.node.hasBeenSet = true) ∧
      ∀ v, tr.isEqual w.node.getValue v = false →
        ∃ w₁, World.setValue doc tr (fuel + 3) w v a = some w₁ ∧
          w₁.node.hasBeenSet = true := by
  -- the innermost call, made while the node already holds `wv`, is suppressed
  have inner : ∀ (k : Nat) (n : SettingData T), n.value = wv → ∀ x : World T D, x.node = n →
      x.valueChanged = pre ++ Slot.setValue wv m :: post →
      x.simpleValueChanged = w.simpleValueChanged →
      ∃ x₁, World.setValue doc tr (k + 1) x wv m = some x₁ ∧ x₁.node = n ∧
        x₁.valueChanged = pre ++ Slot.setValue wv m :: post ∧
        x₁.simpleValueChanged = w.simpleValueChanged := by
    intro k n hn x hx hxv hxs
    refine ⟨x, connected_setValue_of_eq doc tr k x wv m ?_, hx, hxv, hxs⟩
    rw [hx, hn]
    exact hrefl
  -- the subscriber's call, made while the node holds a value different from `wv`
  have nested : ∀ (k : Nat) (n : SettingData T), tr.isEqual n.value wv = false →
      ∀ x : World T D, x.node = n →
      x.valueChanged = pre ++ Slot.setValue wv m :: post →
      x.simpleValueChanged = w.simpleValueChanged →
      ∃ x₁, World.setValue doc tr (k + 2) x wv m = some x₁ ∧
        x₁.node = { n with valueHasBeenSet := true, value := wv } ∧
        x₁.valueChanged = pre ++ Slot.setValue wv m :: post ∧
        x₁.simpleValueChanged = w.simpleValueChanged := by
    intro k n hn x hx hxv hxs
    have hne : tr.isEqual x.node.value wv = false := by
      rw [hx]
      exact hn
    have h := connected_setValue_reentrant doc tr (k + 1) pre post w.simpleValueChanged wv m
      hpre hpost hps x hxv hxs wv m hne { n with valueHasBeenSet := true, value := wv }
      (fun y hy hyv hys => inner k _ rfl y (by rw [hy, hx]) hyv hys)
    exact h
  -- an accepted outer call whose new value differs from `wv`
  have outer : ∀ v, tr.isEqual w.node.value v = false → tr.isEqual v wv = false →
      ∃ w₁, World.setValue doc tr (fuel + 3) w v a = some w₁ ∧
        w₁.node = { w.node with valueHasBeenSet := true, value := wv } := by
    intro v hv hvw
    obtain ⟨w₁, h₁, hn₁, -, -⟩ :=
      connected_setValue_reentrant doc tr (fuel + 2) pre post w.simpleValueChanged wv m
        hpre hpost hps w hvc rfl v a hv { w.node with valueHasBeenSet := true, value := wv }
        (fun y hy hyv hys => by
          obtain ⟨y₁, hy₁, hyn, hyv₁, hys₁⟩ :=
            nested fuel { w.node with valueHasBeenSet := true, value := v } hvw y hy hyv hys
          exact ⟨y₁, hy₁, hyn, hyv₁, hys₁⟩)
    exact ⟨w₁, h₁, hn₁⟩
  obtain ⟨w₁, h₁, hn₁⟩ := outer w.node.defaultValue hcur hwv
  refine ⟨⟨{ w₁ with node := { w₁.node with valueHasBeenSet := w.node.valueHasBeenSet } },
      by simp [World.resetToDefaultValue, h₁], by simp [getValue, hn₁], ?_⟩,
    ⟨w₁, h₁, by simp [getValue, hn₁], by simp [hasBeenSet, hn₁]⟩, fun v hv => ?_⟩
  · simpa [hasBeenSet] using hflag
  · by_cases hvw : tr.isEqual v wv = true
    · -- the subscriber's call is suppressed at once
      obtain ⟨w₂, h₂, hn₂, -, -⟩ :=
        connected_setValue_reentrant doc tr (fuel + 2) pre post w.simpleValueChanged wv m
          hpre hpost hps w hvc rfl v a hv { w.node with valueHasBeenSet := true, value := v }
          (fun y hy hyv hys =>
            ⟨y, connected_setValue_of_eq doc tr (fuel + 1) y wv m (by rw [hy]; exact hvw),
              hy, hyv, hys⟩)
      exact ⟨w₂, h₂, by simp [hasBeenSet, hn₂]⟩
    · have hvw' : tr.isEqual v wv = false := by simpa using hvw
      obtain ⟨w₂, h₂, hn₂⟩ := outer v hv hvw'
      exact ⟨w₂, h₂, by simp [hasBeenSet, hn₂]⟩

/-- Witness of C20: the node built from default 0 and current value 10, never
set, with a subscriber that calls `setValue(7)` connected before the callback of
`registerDocument`. -/
theorem reentrant_setValue_in_reset_not_recorded_witness :
    (World.ofNode overriddenNode).node.hasBeenSet = false ∧
      natTraits.isEqual overriddenNode.getValue overriddenNode.getDefaultValue = false ∧
      natTraits.isEqual overriddenNode.getDefaultValue 7 = false ∧
      natTraits.isEqual 7 7 = true ∧
      (∃ w₁, World.resetToDefaultValue flatDocument natTraits 3
          { World.ofNode overriddenNode with valueChanged := [Slot.setValue 7 { }, Slot.marshal 0] }
          { } = some w₁ ∧
        w₁.node.getValue = 7 ∧ w₁.node.hasBeenSet = false) ∧
      (∃ w₁, World.setValue flatDocument natTraits 3
          { World.ofNode overriddenNode with valueChanged := [Slot.setValue 7 { }, Slot.marshal 0] }
          overriddenNode.getDefaultValue { } = some w₁ ∧
        w₁.node.getValue = 7 ∧ w₁.node.hasBeenSet = true) :=
  ⟨by decide, by decide, by decide, by decide,
    (reentrant_setValue_in_reset_not_recorded flatDocument natTraits 0 [] [Slot.marshal 0] 7 { }
      { World.ofNode overriddenNode with valueChanged := [Slot.setValue 7 { }, Slot.marshal 0] }
      (by decide) (by decide) rfl (by decide) (by decide) (by decide) (by decide) (by decide)
      { }).1,
    (reentrant_setValue_in_reset_not_recorded flatDocument natTraits 0 [] [Slot.marshal 0] 7 { }
      { World.ofNode overriddenNode with valueChanged := [Slot.setValue 7 { }, Slot.marshal 0] }
      (by decide) (by decide) rfl (by decide) (by decide) (by decide) (by decide) (by decide)
      { }).2.1⟩

end pajlada.Settings
